import Mathlib

/-!
Verification development for the adsb-go-dataset pipeline (src/main.go).

The development shallowly embeds the two core components of the program:

* the SBS1 line decoder `Parse` together with its helpers `parseInt`,
  `parseFloat`, `parseBool`, `parseDateTime` (including faithful models of the
  Go standard-library routines they call: `strings.TrimSpace`, `strings.Split`,
  `strconv.Atoi`, `strconv.ParseFloat(s, 32)` and `time.Parse` with the layout
  "2006/01/02 15:04:05");
* the batching read loop of `runApp` and the payload construction of
  `sendToService`, as a fold over the incoming lines with explicit state.

Machine integers are embedded as `Int` with explicit two's-complement
narrowing; `float32` values are embedded as an exact inductive of IEEE-754
binary32 data (sign, mantissa, exponent, infinities, NaN) with a
round-to-nearest-even conversion from exact rationals.
-/

/-! ### Characters and Go string helpers -/

/-- The set of runes trimmed by Go `strings.TrimSpace` (`unicode.IsSpace`):
the Latin-1 white space runes and the Unicode `White_Space` property. -/
def goIsSpace (c : Char) : Bool :=
  let n := c.toNat
  (9 ≤ n && n ≤ 13) || n = 32 || n = 133 || n = 160 || n = 5760 ||
    (8192 ≤ n && n ≤ 8202) || n = 8232 || n = 8233 || n = 8239 || n = 8287 ||
    n = 12288

/-- Go `strings.TrimSpace`: drop leading and trailing white space runes. -/
def goTrimSpace (cs : List Char) : List Char :=
  ((cs.dropWhile goIsSpace).reverse.dropWhile goIsSpace).reverse

/-- Go `strings.TrimSpace` on a `String`. -/
def goTrimSpaceStr (s : String) : String :=
  (goTrimSpace s.toList).asString

/-- Go `strings.Split(s, ",")`: split at every comma; `n` commas give
`n + 1` fields, an empty input gives one empty field. -/
def goSplit : List Char → List (List Char)
  | [] => [[]]
  | c :: rest =>
    match goSplit rest with
    | [] => [[]]
    | f :: fs => if c = ',' then [] :: f :: fs else (c :: f) :: fs

/-- Lower-case an ASCII letter, as Go `strconv`'s `lower`. -/
def asciiLower (c : Char) : Char :=
  if 'A' ≤ c && c ≤ 'Z' then Char.ofNat (c.toNat + 32) else c

/-- Numeric value of an ASCII decimal digit. -/
def digVal (c : Char) : Nat := c.toNat - 48

/-- Hexadecimal letter (a-f, A-F). -/
def isHexLetter (c : Char) : Bool :=
  ('a' ≤ c && c ≤ 'f') || ('A' ≤ c && c ≤ 'F')

/-- Numeric value of a hexadecimal letter. -/
def hexLetterVal (c : Char) : Nat := (asciiLower c).toNat - 87

/-! ### Go `time.Parse` with the fixed layout "2006/01/02 15:04:05" -/

/-- The wall-clock components produced by `time.Parse` for the layout used by
`parseDateTime` (the parsed `time.Time` in UTC). -/
structure GoDateTime where
  year : Nat
  month : Nat
  day : Nat
  hour : Nat
  minute : Nat
  second : Nat
deriving DecidableEq, Repr

/-- Exactly two ASCII digits (Go `getnum` with `fixed = true`). -/
def read2 : List Char → Option (Nat × List Char)
  | c1 :: c2 :: rest =>
    if c1.isDigit && c2.isDigit then some (digVal c1 * 10 + digVal c2, rest)
    else none
  | _ => none

/-- One or two ASCII digits (Go `getnum` with `fixed = false`, used for the
`15` hour field). -/
def readH : List Char → Option (Nat × List Char)
  | c1 :: c2 :: rest =>
    if c1.isDigit then
      if c2.isDigit then some (digVal c1 * 10 + digVal c2, rest)
      else some (digVal c1, c2 :: rest)
    else none
  | [c1] => if c1.isDigit then some (digVal c1, []) else none
  | [] => none

/-- Exactly four ASCII digits (Go `stdLongYear`). -/
def read4 : List Char → Option (Nat × List Char)
  | c1 :: c2 :: c3 :: c4 :: rest =>
    if c1.isDigit && c2.isDigit && c3.isDigit && c4.isDigit then
      some ((digVal c1 * 10 + digVal c2) * 100 + digVal c3 * 10 + digVal c4,
        rest)
    else none
  | _ => none

/-- A required literal layout character. -/
def expectChar (c : Char) : List Char → Option (List Char)
  | d :: rest => if d = c then some rest else none
  | [] => none

/-- Go `isLeap` in package `time`. -/
def goIsLeap (y : Nat) : Bool :=
  y % 4 = 0 && (y % 100 ≠ 0 || y % 400 = 0)

/-- Go `daysIn(m, year)` in package `time`. -/
def daysIn (m y : Nat) : Nat :=
  if m = 2 then (if goIsLeap y then 29 else 28)
  else if m = 4 ∨ m = 6 ∨ m = 9 ∨ m = 11 then 30
  else 31

/-- Go `time.Parse("2006/01/02 15:04:05", s)`: four-digit year, literal `/`,
two-digit month (1..12), literal `/`, two-digit day (validated against the
month length), literal space, one- or two-digit hour (< 24), literal `:`,
two-digit minute (< 60), literal `:`, two-digit second (< 60), and no
trailing text.  Any failure yields `none` (the Go call returns an error). -/
def goTimeParse (s : String) : Option GoDateTime := do
  let (y, r1) ← read4 s.toList
  let r2 ← expectChar '/' r1
  let (mo, r3) ← read2 r2
  let r4 ← expectChar '/' r3
  let (d, r5) ← read2 r4
  let r6 ← expectChar ' ' r5
  let (h, r7) ← readH r6
  let r8 ← expectChar ':' r7
  let (mi, r9) ← read2 r8
  let r10 ← expectChar ':' r9
  let (sec, r11) ← read2 r10
  if ¬ r11.isEmpty then none
  else if mo < 1 ∨ 12 < mo then none
  else if 24 ≤ h then none
  else if 60 ≤ mi then none
  else if 60 ≤ sec then none
  else if d < 1 ∨ daysIn mo y < d then none
  else some ⟨y, mo, d, h, mi, sec⟩

/-- Function `parseDateTime` from src/main.go: join the date and time fields with a
single space (`fmt.Sprintf("%s %s", date, timeStr)`) and parse against the
fixed layout; `none` models the `nil` pointer returned on error. -/
def parseDateTime (date timeStr : String) : Option GoDateTime :=
  goTimeParse (date ++ " " ++ timeStr)

/-! ### Go `strconv.Atoi` and the integer helpers -/

/-- Accumulate the value of a run of ASCII decimal digits. -/
def digitsToNat : List Char → Nat → Nat
  | [], acc => acc
  | c :: cs, acc => digitsToNat cs (acc * 10 + digVal c)

/-- Go `strconv.Atoi` (that is, `ParseInt(s, 10, 0)` with 64-bit `int`):
an optional single sign followed by one or more ASCII decimal digits, with
the value required to fit in a signed 64-bit integer; everything else is an
error, modelled as `none`. -/
def goAtoi (s : String) : Option Int :=
  let cs := s.toList
  let p : Bool × List Char :=
    match cs with
    | '+' :: r => (false, r)
    | '-' :: r => (true, r)
    | r => (false, r)
  let ds := p.2
  if ds.isEmpty then none
  else if ds.all Char.isDigit then
    let v0 : Int := (digitsToNat ds 0 : Nat)
    let v : Int := if p.1 then -v0 else v0
    if v < -(2 ^ 63) ∨ (2 ^ 63 - 1 : Int) < v then none else some v
  else none

/-- Two's-complement narrowing of a (64-bit) integer to `int32`, the Go
conversion `int32(i)`. -/
def toInt32 (i : Int) : Int :=
  (i + 2 ^ 31) % 2 ^ 32 - 2 ^ 31

/-- Function `parseInt` from src/main.go: `strconv.Atoi` narrowed to `int32`,
returning 0 on any parse failure. -/
def parseInt (s : String) : Int :=
  match goAtoi s with
  | some i => toInt32 i
  | none => 0

/-- Function `parseBool` from src/main.go: `strconv.Atoi`, then `b != 0`; `false` on
any parse failure.  Note the non-zero test happens on the 64-bit value,
before any narrowing. -/
def parseBool (s : String) : Bool :=
  match goAtoi s with
  | some b => decide (b ≠ 0)
  | none => false

/-! ### Go `strconv.ParseFloat(s, 32)` and the float helper

A `float32` value is embedded exactly: a finite value is
`(-1)^neg * mant * 2^exp` with `mant < 2^24` and `-149 ≤ exp ≤ 104`, or an
infinity or NaN.  `strconv.ParseFloat` is modelled as the exact rational
denoted by the literal, rounded to nearest (ties to even) binary32, with
overflow reported as a range error (hence `none`, which `parseFloat` turns
into the default 0). -/

/-- An IEEE-754 binary32 datum, as stored in the record fields typed
`float32` in src/main.go. -/
inductive GoFloat32 where
  | finite (neg : Bool) (mant : Nat) (exp : Int) : GoFloat32
  | inf (neg : Bool) : GoFloat32
  | nan : GoFloat32
deriving DecidableEq, Repr

/-- The zero value of the Go type `float32`. -/
def f32zero : GoFloat32 := .finite false 0 0

/-- The representation bounds of a binary32 datum: a finite value has a
mantissa below `2^24`, and a non-zero finite value sits between the smallest
subnormal scale `2^(-149)` and the largest normal scale `2^104`. -/
def F32Repr : GoFloat32 → Prop
  | .finite _ m e => m < 2 ^ 24 ∧ (m ≠ 0 → -149 ≤ e ∧ e ≤ 104)
  | _ => True

instance (f : GoFloat32) : Decidable (F32Repr f) := by
  unfold F32Repr; cases f <;> infer_instance

/-- Round a non-negative rational to an integer, ties to even. -/
def rneQ (q : ℚ) : Int :=
  let fl := ⌊q⌋
  if q - fl < 1 / 2 then fl
  else if (1 : ℚ) / 2 < q - fl then fl + 1
  else if fl % 2 = 0 then fl else fl + 1

/-- Pack a rounded mantissa at scale `2^s` into the binary32 layout: a
mantissa that rounded up to `2^24` moves up one binade, and a non-zero
result whose scale exceeds the largest normal scale `2^104` is a range
error (`none`). -/
def f32pack (m : Int) (s : Int) : Option (Nat × Int) :=
  if m = 2 ^ 24 then
    (if 104 < s + 1 then none else some (2 ^ 23, s + 1))
  else if 104 < s ∧ m ≠ 0 then none
  else some (m.toNat, s)

/-- Round a positive rational to binary32 mantissa and exponent with
round-to-nearest-even, as Go's `decimal.floatBits` does for `float32`:
the mantissa scale is `2^(e-23)` for a normal result and `2^(-149)` in the
subnormal range (`e` the base-2 logarithm of the value). -/
def roundPosF32 (q : ℚ) : Option (Nat × Int) :=
  let s := max (Int.log 2 q - 23) (-149)
  f32pack (rneQ (q * 2 ^ (-s))) s

/-- Convert the exact (signed) rational value of a literal to a binary32
datum; zero keeps the literal's sign, overflow is a range error (`none`). -/
def encodeF32 (neg : Bool) (q : ℚ) : Option GoFloat32 :=
  if 0 < q then
    match roundPosF32 q with
    | none => none
    | some (m, s) => some (.finite neg m (if m = 0 then 0 else s))
  else some (.finite neg 0 0)

/-- Read a run of digits (decimal, or hexadecimal when `hex`), skipping
underscores exactly as Go's `readFloat` does (placement is validated
separately); returns the accumulated value, the number of digits read, and
the rest of the input. -/
def readDigs (hex : Bool) : List Char → Nat → Nat → Nat × Nat × List Char
  | [], acc, n => (acc, n, [])
  | c :: cs, acc, n =>
    if c.isDigit then
      readDigs hex cs (acc * (if hex then 16 else 10) + digVal c) (n + 1)
    else if hex && isHexLetter c then
      readDigs hex cs (acc * 16 + hexLetterVal c) (n + 1)
    else if c = '_' then readDigs hex cs acc n
    else (acc, n, c :: cs)

/-- Go `strconv.underscoreOK` body: each underscore must be preceded and
followed by a digit (a base prefix counting as a digit), and the number must
not end in an underscore.  `saw` is `'^'` at the start, `'0'` after a digit,
`'_'` after an underscore and `'!'` after any other character. -/
def underscoreOKAux (hex : Bool) : List Char → Char → Bool
  | [], saw => saw ≠ '_'
  | c :: cs, saw =>
    if c.isDigit || (hex && isHexLetter c) then underscoreOKAux hex cs '0'
    else if c = '_' then saw = '0' && underscoreOKAux hex cs '_'
    else if saw = '_' then false
    else underscoreOKAux hex cs '!'

/-- Go `strconv.underscoreOK` on the whole literal (sign and optional base
marker included). -/
def underscoreOK (cs : List Char) : Bool :=
  let cs1 :=
    match cs with
    | '+' :: r => r
    | '-' :: r => r
    | r => r
  match cs1 with
  | '0' :: b :: rest =>
    if asciiLower b = 'x' || asciiLower b = 'b' || asciiLower b = 'o' then
      underscoreOKAux (asciiLower b = 'x') rest '0'
    else underscoreOKAux false cs1 '^'
  | _ => underscoreOKAux false cs1 '^'

/-- Strip the optional sign of a float literal: the Go sign handling shared
by `special` and `readFloat`.  Returns the sign, whether a sign character
was present, and the rest of the input. -/
def splitSign : List Char → Bool × Bool × List Char
  | '+' :: r => (false, true, r)
  | '-' :: r => (true, true, r)
  | r => (false, false, r)

/-- An optional exponent sign; returns the sign as `1` or `-1` and the rest. -/
def readExpSign : List Char → Int × List Char
  | '+' :: r => (1, r)
  | '-' :: r => (-1, r)
  | r => (1, r)

/-- Read the body of a decimal float literal (Go `readFloat`, decimal case):
digits with at most one dot, at least one digit overall, then an optional
`e`/`E` exponent whose first character after the sign must be a digit.
Returns the integer mantissa and the decimal exponent to apply to it. -/
def readDecParts (body : List Char) : Option (Nat × Int) :=
  let q1 := readDigs false body 0 0
  let q2 : Nat × Nat × List Char :=
    match q1.2.2 with
    | '.' :: rest =>
      let q := readDigs false rest q1.1 0
      (q.1, q.2.1, q.2.2)
    | r => (q1.1, 0, r)
  if q1.2.1 + q2.2.1 = 0 then none
  else
    match q2.2.2 with
    | [] => some (q2.1, -(q2.2.1 : Int))
    | e :: rest =>
      if asciiLower e = 'e' then
        let es := readExpSign rest
        match es.2 with
        | [] => none
        | c :: _ =>
          if c.isDigit then
            let q3 := readDigs false es.2 0 0
            if q3.2.2 = [] then
              some (q2.1, es.1 * (q3.1 : Int) - (q2.2.1 : Int))
            else none
          else none
      else none

/-- Read the body of a hexadecimal float literal after the `0x` marker
(Go `readFloat`, hex case): hex digits with at most one dot, at least one
digit, then a mandatory `p`/`P` exponent in decimal.  Returns the integer
mantissa and the binary exponent to apply to it. -/
def readHexParts (afterX : List Char) : Option (Nat × Int) :=
  let q1 := readDigs true afterX 0 0
  let q2 : Nat × Nat × List Char :=
    match q1.2.2 with
    | '.' :: rest =>
      let q := readDigs true rest q1.1 0
      (q.1, q.2.1, q.2.2)
    | r => (q1.1, 0, r)
  if q1.2.1 + q2.2.1 = 0 then none
  else
    match q2.2.2 with
    | [] => none
    | p :: rest =>
      if asciiLower p = 'p' then
        let es := readExpSign rest
        match es.2 with
        | [] => none
        | c :: _ =>
          if c.isDigit then
            let q3 := readDigs false es.2 0 0
            if q3.2.2 = [] then
              some (q2.1, es.1 * (q3.1 : Int) - 4 * (q2.2.1 : Int))
            else none
          else none
      else none

/-- Assemble a decimal literal `m * 10^dexp` into a binary32 datum.  The two
guards mirror `strconv`'s decimal exponent clamping (`d.dp > 310` is a range
error, `d.dp < -330` is a silent zero): with `m < 10^L` (at most `L` digits),
`39 ≤ dexp` forces a value beyond the float32 range and `L + dexp ≤ -61`
forces a value below half the smallest subnormal. -/
def assembleDec (neg : Bool) (m : Nat) (dexp : Int) (L : Nat) :
    Option GoFloat32 :=
  if m = 0 then some (.finite neg 0 0)
  else if 39 ≤ dexp then none
  else if (L : Int) + dexp ≤ -61 then some (.finite neg 0 0)
  else encodeF32 neg ((m : ℚ) * (10 : ℚ) ^ dexp)

/-- Assemble a hexadecimal literal `m * 2^bexp` into a binary32 datum, with
the same kind of exponent clamping as `assembleDec`. -/
def assembleHex (neg : Bool) (m : Nat) (bexp : Int) (L : Nat) :
    Option GoFloat32 :=
  if m = 0 then some (.finite neg 0 0)
  else if 129 ≤ bexp then none
  else if 4 * (L : Int) + bexp ≤ -150 then some (.finite neg 0 0)
  else encodeF32 neg ((m : ℚ) * (2 : ℚ) ^ bexp)

/-- Go `strconv.ParseFloat(s, 32)`, full-string form: the special values
`inf`/`infinity` (optionally signed) and `nan` (unsigned), case-insensitive;
otherwise a decimal or `0x` hexadecimal float literal with Go's underscore
placement rule, converted to the nearest binary32 value.  A syntax error or
a range error (overflow) yields `none`. -/
def goParseFloat32 (s : String) : Option GoFloat32 :=
  let cs := s.toList
  let p := splitSign cs
  let neg := p.1
  let body := p.2.2
  let low := body.map asciiLower
  if low = "inf".toList ∨ low = "infinity".toList then some (.inf neg)
  else if ¬ p.2.1 ∧ low = "nan".toList then some .nan
  else if ¬ underscoreOK cs then none
  else
    match body with
    | '0' :: x :: rest =>
      if asciiLower x = 'x' then
        (readHexParts rest).bind (fun q => assembleHex neg q.1 q.2 rest.length)
      else
        (readDecParts body).bind (fun q => assembleDec neg q.1 q.2 body.length)
    | _ =>
      (readDecParts body).bind (fun q => assembleDec neg q.1 q.2 body.length)

/-- Function `parseFloat` from src/main.go: `strconv.ParseFloat(s, 32)` narrowed to
`float32`, returning 0 on any parse failure (syntax or range error). -/
def parseFloat (s : String) : GoFloat32 :=
  match goParseFloat32 s with
  | some f => f
  | none => f32zero

/-! ### The SBS1 record and `Parse` -/

/-- Structure `SBS1Message` from src/main.go.  `int32` fields are embedded as `Int`
(with the narrowing performed by `parseInt`), `float32` fields as
`GoFloat32`, and the `*time.Time` fields as `Option GoDateTime`. -/
structure SBS1Message where
  Timestamp : String
  MessageType : String
  TransmissionType : Int
  SessionID : String
  AircraftID : String
  Icao24 : String
  FlightID : String
  GeneratedDate : Option GoDateTime
  LoggedDate : Option GoDateTime
  Callsign : String
  Altitude : Int
  GroundSpeed : GoFloat32
  Track : GoFloat32
  Lat : GoFloat32
  Lon : GoFloat32
  VerticalRate : Int
  Squawk : Int
  Alert : Bool
  Emergency : Bool
  Spi : Bool
  OnGround : Bool
deriving DecidableEq, Repr

/-- Function `NewSBS1Message` from src/main.go: every field takes the Go zero value
of its type, except `Timestamp` which is the decode-time instant
(`time.Now().UnixNano()`, here the parameter `now`) formatted in decimal. -/
def NewSBS1Message (now : Int) : SBS1Message where
  Timestamp := toString now
  MessageType := ""
  TransmissionType := 0
  SessionID := ""
  AircraftID := ""
  Icao24 := ""
  FlightID := ""
  GeneratedDate := none
  LoggedDate := none
  Callsign := ""
  Altitude := 0
  GroundSpeed := f32zero
  Track := f32zero
  Lat := f32zero
  Lon := f32zero
  VerticalRate := 0
  Squawk := 0
  Alert := false
  Emergency := false
  Spi := false
  OnGround := false

/-- The field list of a line: `strings.Split(strings.TrimSpace(msg), ",")`. -/
def partsOf (msg : String) : List String :=
  (goSplit (goTrimSpace msg.toList)).map List.asString

/-- Function `Parse` from src/main.go.  The decode-time instant `time.Now()` is the
explicit parameter `now`.  A line is rejected when it has fewer than 22
comma-separated fields after trimming or its first field is not `MSG`;
otherwise the positional fields are decoded with the fallback helpers. -/
def Parse (now : Int) (msg : String) : SBS1Message × Bool :=
  let sbs1 := NewSBS1Message now
  let parts := partsOf msg
  if parts.length < 22 ∨ parts.getD 0 "" ≠ "MSG" then (sbs1, false)
  else
    ({ sbs1 with
        MessageType := "MSG"
        TransmissionType := parseInt (parts.getD 1 "")
        SessionID := parts.getD 2 ""
        AircraftID := parts.getD 3 ""
        Icao24 := parts.getD 4 ""
        FlightID := parts.getD 5 ""
        GeneratedDate := parseDateTime (parts.getD 6 "") (parts.getD 7 "")
        LoggedDate := parseDateTime (parts.getD 8 "") (parts.getD 9 "")
        Callsign := goTrimSpaceStr (parts.getD 10 "")
        Altitude := parseInt (parts.getD 11 "")
        GroundSpeed := parseFloat (parts.getD 12 "")
        Track := parseFloat (parts.getD 13 "")
        Lat := parseFloat (parts.getD 14 "")
        Lon := parseFloat (parts.getD 15 "")
        VerticalRate := parseInt (parts.getD 16 "")
        Squawk := parseInt (parts.getD 17 "")
        Alert := parseBool (parts.getD 18 "")
        Emergency := parseBool (parts.getD 19 "")
        Spi := parseBool (parts.getD 20 "")
        OnGround := parseBool (parts.getD 21 "") },
      true)

/-! ### `sendToService` payload construction and the `runApp` loop -/

/-- One element of the `events` array built by `sendToService`. -/
structure SinkEvent where
  parserTag : String
  ts : String
  sev : Nat
  attrsMessage : SBS1Message
  attrsSource : String
  attrsCollector : String
  attrsParserTag : String
deriving DecidableEq, Repr

/-- The event `sendToService` builds for one message. -/
def mkEvent (m : SBS1Message) : SinkEvent :=
  { parserTag := "adsb"
    ts := m.Timestamp
    sev := 3
    attrsMessage := m
    attrsSource := "dump1090-fa"
    attrsCollector := "imichaelmoore/adsb-go-dataset"
    attrsParserTag := "adsb" }

/-- The pure content of `sendToService` from src/main.go: one event per
message, in slice order (the loop `for i, message := range messages`).
The HTTP delivery itself is the external sink; its success or failure is an
input of the run model below. -/
def sendToService (messages : List SBS1Message) : List SinkEvent :=
  messages.map mkEvent

/-- One line offered to the read loop: the raw text, the decode-time instant
for this line, and whether the sink call would fail if this line triggers a
flush. -/
structure LineInput where
  line : String
  now : Int
  sinkFails : Bool
deriving Repr

/-- The part of a `LineInput` visible to the pipeline state (everything but
the sink outcome). -/
def LineInput.strip (i : LineInput) : String × Int := (i.line, i.now)

/-- The decoded record of a line (first component of `Parse`). -/
def recOf (i : LineInput) : SBS1Message := (Parse i.now i.line).1

/-- Whether a line is accepted by `Parse`. -/
def acceptedInp (i : LineInput) : Prop := (Parse i.now i.line).2 = true

instance (i : LineInput) : Decidable (acceptedInp i) := by
  unfold acceptedInp; infer_instance

/-- The mutable state of the `runApp` read loop: the `messages` buffer, the
list of batches handed to `sendToService` so far (in flush order), and the
error log lines printed for failed sends. -/
structure RunState where
  buffer : List SBS1Message
  sent : List (List SBS1Message)
  errLog : List String
deriving Repr

/-- The body of the `runApp` scanner loop for one line: parse; if accepted,
append to the buffer; if the buffer length has reached `BATCH_SIZE`, send it
(logging an error on a failed send) and clear the buffer. -/
def loopStep (batchSize : Int) (st : RunState) (inp : LineInput) : RunState :=
  if (Parse inp.now inp.line).2 then
    let messages := st.buffer ++ [(Parse inp.now inp.line).1]
    if batchSize ≤ (messages.length : Int) then
      { buffer := []
        sent := st.sent ++ [messages]
        errLog := st.errLog ++
          (if inp.sinkFails then ["Error sending messages:"] else []) }
    else { st with buffer := messages }
  else st

/-- The `runApp` scanner loop over a finite input stream, from the empty
buffer. -/
def runLoop (batchSize : Int) (inputs : List LineInput) : RunState :=
  inputs.foldl (loopStep batchSize) ⟨[], [], []⟩

/-- Function `runApp` after the stream ends: if the buffer is non-empty, one more
send ships the remaining records (the buffer itself is not cleared; the
process exits).  Returns the loop state (with the final error log) and the
final batch, if any. -/
def runApp (batchSize : Int) (inputs : List LineInput) (finalFails : Bool) :
    RunState × Option (List SBS1Message) :=
  let st := runLoop batchSize inputs
  if 0 < st.buffer.length then
    ({ st with errLog := st.errLog ++
        (if finalFails then ["Error sending remaining messages:"] else []) },
      some st.buffer)
  else (st, none)

/-! ### Sample lines used by concrete witnesses -/

/-- A well-formed 22-field MSG line with both dates parsable. -/
def msgLineA : String :=
  "MSG,3,1,1,ABC123,1,2023/05/01,12:00:00,2023/05/01,12:00:01, UAL123 ,35000,450.5,180.0,40.7,-74.0,64,1200,1,0,0,1"

/-- A 22-field MSG line whose generated date and numeric fields are
unparsable. -/
def msgLineBadDate : String :=
  "MSG,1,1,1,ABC123,1,garbage,12:00:00,2023/05/01,12:00:00,CS,x,y,z,w,v,u,t,s,r,q,p"

/-- A line with 23 comma-separated fields (more than the required 22). -/
def msgLine23 : String :=
  "MSG,1,1,1,A,1,a,b,c,d,e,f,g,h,i,j,k,l,m,n,o,p,q"

/-! ### Claims about the line decoder -/

/-- Claim C1: a line is rejected by `Parse` exactly when, after trimming and
splitting on commas, it has fewer than 22 fields or its first field is not
the literal `MSG`; every other line is accepted, including one with more
than 22 fields, and no other validation affects acceptance. -/
theorem parse_rejects_iff_structural :
    (∀ (now : Int) (msg : String),
      ((Parse now msg).2 = false ↔
        ((partsOf msg).length < 22 ∨ (partsOf msg).getD 0 "" ≠ "MSG"))) ∧
    (partsOf msgLine23).length = 23 ∧ (Parse 0 msgLine23).2 = true := by
  refine ⟨?_, by decide, by decide⟩
  intro now msg
  by_cases h : (partsOf msg).length < 22 ∨ (partsOf msg).getD 0 "" ≠ "MSG"
  · simp only [Parse]
    rw [if_pos h]
    simpa using h
  · simp only [Parse]
    rw [if_neg h]
    simpa using h

/-- Claim C10: the record returned alongside a rejection carries no payload
data: its `MessageType` is empty and every field except the decode-time
`Timestamp` is the zero value of its type; an accepted record, by contrast,
is tagged `MSG`. -/
theorem rejected_record_is_blank :
    ∀ (now : Int) (msg : String),
      ((Parse now msg).2 = false →
        (Parse now msg).1 =
          { Timestamp := toString now, MessageType := "",
            TransmissionType := 0, SessionID := "", AircraftID := "",
            Icao24 := "", FlightID := "", GeneratedDate := none,
            LoggedDate := none, Callsign := "", Altitude := 0,
            GroundSpeed := f32zero, Track := f32zero, Lat := f32zero,
            Lon := f32zero, VerticalRate := 0, Squawk := 0, Alert := false,
            Emergency := false, Spi := false, OnGround := false }) ∧
      ((Parse now msg).2 = true → (Parse now msg).1.MessageType = "MSG") := by
  intro now msg
  by_cases h : (partsOf msg).length < 22 ∨ (partsOf msg).getD 0 "" ≠ "MSG"
  · simp only [Parse]
    rw [if_pos h]
    exact ⟨fun _ => rfl, fun hb => by simp at hb⟩
  · simp only [Parse]
    rw [if_neg h]
    exact ⟨fun hb => by simp at hb, fun _ => rfl⟩

/-- Witness for C10 at the rejected line `"junk"` and the accepted line
`msgLineA`. -/
theorem rejected_record_is_blank_witness :
    (Parse 5 "junk").2 = false ∧
    (Parse 5 "junk").1 =
      { Timestamp := toString (5 : Int), MessageType := "",
        TransmissionType := 0, SessionID := "", AircraftID := "",
        Icao24 := "", FlightID := "", GeneratedDate := none,
        LoggedDate := none, Callsign := "", Altitude := 0,
        GroundSpeed := f32zero, Track := f32zero, Lat := f32zero,
        Lon := f32zero, VerticalRate := 0, Squawk := 0, Alert := false,
        Emergency := false, Spi := false, OnGround := false } ∧
    (Parse 7 msgLineA).2 = true ∧ (Parse 7 msgLineA).1.MessageType = "MSG" :=
  ⟨by decide, (rejected_record_is_blank 5 "junk").1 (by decide), by decide,
    (rejected_record_is_blank 7 msgLineA).2 (by decide)⟩

/-- Claim C2: on an accepted line the record fields come from the documented
0-indexed positions: field 1 is the transmission type, fields 2-5 the raw
identifier strings, field 10 the trimmed callsign, fields 11-17 the numeric
fields and fields 18-21 the boolean fields, with the record tagged `MSG`. -/
theorem parse_field_positions :
    ∀ (now : Int) (msg : String), (Parse now msg).2 = true →
      (Parse now msg).1.MessageType = "MSG" ∧
      (Parse now msg).1.TransmissionType =
        parseInt ((partsOf msg).getD 1 "") ∧
      (Parse now msg).1.SessionID = (partsOf msg).getD 2 "" ∧
      (Parse now msg).1.AircraftID = (partsOf msg).getD 3 "" ∧
      (Parse now msg).1.Icao24 = (partsOf msg).getD 4 "" ∧
      (Parse now msg).1.FlightID = (partsOf msg).getD 5 "" ∧
      (Parse now msg).1.Callsign = goTrimSpaceStr ((partsOf msg).getD 10 "") ∧
      (Parse now msg).1.Altitude = parseInt ((partsOf msg).getD 11 "") ∧
      (Parse now msg).1.GroundSpeed = parseFloat ((partsOf msg).getD 12 "") ∧
      (Parse now msg).1.Track = parseFloat ((partsOf msg).getD 13 "") ∧
      (Parse now msg).1.Lat = parseFloat ((partsOf msg).getD 14 "") ∧
      (Parse now msg).1.Lon = parseFloat ((partsOf msg).getD 15 "") ∧
      (Parse now msg).1.VerticalRate = parseInt ((partsOf msg).getD 16 "") ∧
      (Parse now msg).1.Squawk = parseInt ((partsOf msg).getD 17 "") ∧
      (Parse now msg).1.Alert = parseBool ((partsOf msg).getD 18 "") ∧
      (Parse now msg).1.Emergency = parseBool ((partsOf msg).getD 19 "") ∧
      (Parse now msg).1.Spi = parseBool ((partsOf msg).getD 20 "") ∧
      (Parse now msg).1.OnGround = parseBool ((partsOf msg).getD 21 "") := by
  intro now msg h
  by_cases hg : (partsOf msg).length < 22 ∨ (partsOf msg).getD 0 "" ≠ "MSG"
  · simp only [Parse] at h
    rw [if_pos hg] at h
    simp at h
  · simp only [Parse]
    rw [if_neg hg]
    exact ⟨rfl, rfl, rfl, rfl, rfl, rfl, rfl, rfl, rfl, rfl, rfl, rfl, rfl,
      rfl, rfl, rfl, rfl, rfl⟩

/-- Witness for C2 at the accepted line `msgLineA`. -/
theorem parse_field_positions_witness :
    (Parse 7 msgLineA).2 = true ∧
    (Parse 7 msgLineA).1.SessionID = (partsOf msgLineA).getD 2 "" ∧
    (Parse 7 msgLineA).1.Callsign =
      goTrimSpaceStr ((partsOf msgLineA).getD 10 "") :=
  ⟨by decide, (parse_field_positions 7 msgLineA (by decide)).2.2.1,
    (parse_field_positions 7 msgLineA (by decide)).2.2.2.2.2.2.1⟩

/-- Claim C4: on an accepted line `generatedAt` is parsed from fields 6 and
7 joined as "date time" against the fixed layout "2006/01/02 15:04:05"
(that is, YYYY/MM/DD HH:MM:SS), and `loggedAt` from fields 8 and 9 by the
same rule; an unparsable pair yields a null field while the record stays
accepted.  The pair ("2023/05/01","12:00:00") decodes to the instant
2023-05-01T12:00:00 and the pair ("garbage","12:00:00") to null. -/
theorem parse_datetime_layout :
    (∀ (now : Int) (msg : String), (Parse now msg).2 = true →
      (Parse now msg).1.GeneratedDate =
        parseDateTime ((partsOf msg).getD 6 "") ((partsOf msg).getD 7 "") ∧
      (Parse now msg).1.LoggedDate =
        parseDateTime ((partsOf msg).getD 8 "") ((partsOf msg).getD 9 "")) ∧
    (∀ d t, parseDateTime d t = goTimeParse (d ++ " " ++ t)) ∧
    parseDateTime "2023/05/01" "12:00:00" =
      some { year := 2023, month := 5, day := 1, hour := 12, minute := 0,
             second := 0 } ∧
    parseDateTime "garbage" "12:00:00" = none ∧
    (Parse 0 msgLineBadDate).2 = true ∧
    (Parse 0 msgLineBadDate).1.GeneratedDate = none ∧
    (Parse 0 msgLineBadDate).1.LoggedDate =
      some { year := 2023, month := 5, day := 1, hour := 12, minute := 0,
             second := 0 } := by
  refine ⟨?_, fun d t => rfl, by decide, by decide, by decide, by decide,
    by decide⟩
  intro now msg h
  by_cases hg : (partsOf msg).length < 22 ∨ (partsOf msg).getD 0 "" ≠ "MSG"
  · simp only [Parse] at h
    rw [if_pos hg] at h
    simp at h
  · simp only [Parse]
    rw [if_neg hg]
    exact ⟨rfl, rfl⟩

/-- Witness for C4 at the accepted line `msgLineA`. -/
theorem parse_datetime_layout_witness :
    (Parse 7 msgLineA).2 = true ∧
    (Parse 7 msgLineA).1.GeneratedDate =
      parseDateTime ((partsOf msgLineA).getD 6 "")
        ((partsOf msgLineA).getD 7 "") :=
  ⟨by decide, (parse_datetime_layout.1 7 msgLineA (by decide)).1⟩

/-- Claim C3: a numeric or boolean field whose source text fails to parse
takes the fixed default of its type (0, 0.0 or `false`) and never causes
rejection, which depends only on the structural guard; a boolean source
that parses as a non-zero integer gives `true`, the text "0" gives `false`,
and any non-numeric text gives `false`. -/
theorem parse_coercion_defaults :
    (∀ s, goAtoi s = none → parseInt s = 0 ∧ parseBool s = false) ∧
    (∀ s, goParseFloat32 s = none → parseFloat s = f32zero) ∧
    (∀ s i, goAtoi s = some i → parseBool s = decide (i ≠ 0)) ∧
    parseBool "0" = false ∧ parseBool "1" = true ∧
    (∀ (now : Int) (msg : String),
      ((Parse now msg).2 = true ↔
        ¬ ((partsOf msg).length < 22 ∨ (partsOf msg).getD 0 "" ≠ "MSG"))) ∧
    (∀ (now : Int) (msg : String), (Parse now msg).2 = true →
      (goAtoi ((partsOf msg).getD 1 "") = none →
        (Parse now msg).1.TransmissionType = 0) ∧
      (goAtoi ((partsOf msg).getD 11 "") = none →
        (Parse now msg).1.Altitude = 0) ∧
      (goAtoi ((partsOf msg).getD 16 "") = none →
        (Parse now msg).1.VerticalRate = 0) ∧
      (goAtoi ((partsOf msg).getD 17 "") = none →
        (Parse now msg).1.Squawk = 0) ∧
      (goParseFloat32 ((partsOf msg).getD 12 "") = none →
        (Parse now msg).1.GroundSpeed = f32zero) ∧
      (goParseFloat32 ((partsOf msg).getD 13 "") = none →
        (Parse now msg).1.Track = f32zero) ∧
      (goParseFloat32 ((partsOf msg).getD 14 "") = none →
        (Parse now msg).1.Lat = f32zero) ∧
      (goParseFloat32 ((partsOf msg).getD 15 "") = none →
        (Parse now msg).1.Lon = f32zero) ∧
      (goAtoi ((partsOf msg).getD 18 "") = none →
        (Parse now msg).1.Alert = false) ∧
      (goAtoi ((partsOf msg).getD 19 "") = none →
        (Parse now msg).1.Emergency = false) ∧
      (goAtoi ((partsOf msg).getD 20 "") = none →
        (Parse now msg).1.Spi = false) ∧
      (goAtoi ((partsOf msg).getD 21 "") = none →
        (Parse now msg).1.OnGround = false)) := by
  refine ⟨fun s h => ⟨by simp [parseInt, h], by simp [parseBool, h]⟩,
    fun s h => by simp [parseFloat, h],
    fun s i h => by simp [parseBool, h],
    by decide, by decide, ?_, ?_⟩
  · intro now msg
    by_cases h : (partsOf msg).length < 22 ∨ (partsOf msg).getD 0 "" ≠ "MSG"
    · simp only [Parse]
      rw [if_pos h]
      exact ⟨fun hb => by simp at hb, fun hn => absurd h hn⟩
    · simp only [Parse]
      rw [if_neg h]
      exact ⟨fun _ => h, fun _ => rfl⟩
  · intro now msg h
    by_cases hg : (partsOf msg).length < 22 ∨ (partsOf msg).getD 0 "" ≠ "MSG"
    · simp only [Parse] at h
      rw [if_pos hg] at h
      simp at h
    · simp only [Parse]
      rw [if_neg hg]
      refine ⟨?_, ?_, ?_, ?_, ?_, ?_, ?_, ?_, ?_, ?_, ?_, ?_⟩ <;>
        intro hx <;> simp only [parseInt, parseFloat, parseBool, hx]

/-- Witness for C3: concrete unparsable and parsable sources, and the
accepted line `msgLineBadDate` whose altitude field is the unparsable
text "x". -/
theorem parse_coercion_defaults_witness :
    (goAtoi "abc" = none ∧ parseInt "abc" = 0 ∧ parseBool "abc" = false) ∧
    (goParseFloat32 "zz" = none ∧ parseFloat "zz" = f32zero) ∧
    (goAtoi "7" = some 7 ∧ parseBool "7" = decide ((7 : Int) ≠ 0)) ∧
    ((Parse 0 msgLineBadDate).2 = true ∧
      goAtoi ((partsOf msgLineBadDate).getD 11 "") = none ∧
      (Parse 0 msgLineBadDate).1.Altitude = 0) :=
  ⟨⟨by decide, (parse_coercion_defaults.1 "abc" (by decide)).1,
      (parse_coercion_defaults.1 "abc" (by decide)).2⟩,
    ⟨by decide, parse_coercion_defaults.2.1 "zz" (by decide)⟩,
    ⟨by decide, parse_coercion_defaults.2.2.1 "7" 7 (by decide)⟩,
    ⟨by decide, by decide,
      (parse_coercion_defaults.2.2.2.2.2.2 0 msgLineBadDate
        (by decide)).2.1 (by decide)⟩⟩

/-! ### Bounds of the numeric embeddings -/

/-- The zero value is a well-formed binary32 datum. -/
theorem F32Repr_zero (neg : Bool) : F32Repr (.finite neg 0 0) :=
  ⟨by norm_num, fun hc => absurd rfl hc⟩

/-- Rounding to nearest never exceeds a strict integer upper bound of the
input. -/
theorem rneQ_le_of_lt (q : ℚ) (B : Int) (h : q < (B : ℚ)) : rneQ q ≤ B := by
  have hfl : ⌊q⌋ < B := Int.floor_lt.mpr h
  simp only [rneQ]
  split
  · omega
  · split
    · omega
    · split <;> omega

/-- Rounding to nearest preserves non-negativity. -/
theorem rneQ_nonneg (q : ℚ) (h : 0 ≤ q) : 0 ≤ rneQ q := by
  have hfl : 0 ≤ ⌊q⌋ := Int.floor_nonneg.mpr h
  simp only [rneQ]
  split
  · omega
  · split
    · omega
    · split <;> omega

/-- Packing via `f32pack` only emits mantissas below `2^24` at scales in the binary32
range. -/
theorem f32pack_repr (m s : Int) (mo : Nat) (so : Int) (hm0 : 0 ≤ m)
    (hm : m ≤ 2 ^ 24) (hs : -149 ≤ s) (h : f32pack m s = some (mo, so)) :
    mo < 2 ^ 24 ∧ -149 ≤ so ∧ (mo ≠ 0 → so ≤ 104) := by
  unfold f32pack at h
  split at h
  · split at h
    · cases h
    · simp only [Option.some.injEq, Prod.mk.injEq] at h
      obtain ⟨hmo, hso⟩ := h
      subst hmo
      subst hso
      rename_i hcond
      refine ⟨by norm_num, by omega, fun _ => by omega⟩
  · split at h
    · cases h
    · simp only [Option.some.injEq, Prod.mk.injEq] at h
      obtain ⟨hmo, hso⟩ := h
      subst hmo
      subst hso
      rename_i hne hcond
      refine ⟨by omega, hs, fun hx => by omega⟩

/-- Rounding via `roundPosF32` only emits well-formed binary32 data. -/
theorem roundPosF32_repr (q : ℚ) (hq : 0 < q) (mo : Nat) (so : Int)
    (h : roundPosF32 q = some (mo, so)) :
    mo < 2 ^ 24 ∧ -149 ≤ so ∧ (mo ≠ 0 → so ≤ 104) := by
  simp only [roundPosF32] at h
  set s := max (Int.log 2 q - 23) (-149) with hsdef
  have hs : -149 ≤ s := le_max_right _ _
  have hup : q < (2 : ℚ) ^ (Int.log 2 q + 1) :=
    Int.lt_zpow_succ_log_self (by norm_num) q
  have hx0 : 0 ≤ q * (2 : ℚ) ^ (-s) :=
    le_of_lt (mul_pos hq (zpow_pos (by norm_num) _))
  have hxlt : q * (2 : ℚ) ^ (-s) < (2 : ℚ) ^ (Int.log 2 q + 1 + -s) := by
    rw [zpow_add₀ (by norm_num : (2 : ℚ) ≠ 0)]
    exact mul_lt_mul_of_pos_right hup (zpow_pos (by norm_num) _)
  have hle : Int.log 2 q + 1 + -s ≤ 24 := by
    have := le_max_left (Int.log 2 q - 23) (-149)
    omega
  have hxlt2 : q * (2 : ℚ) ^ (-s) < ((2 ^ 24 : Int) : ℚ) := by
    calc q * (2 : ℚ) ^ (-s) < (2 : ℚ) ^ (Int.log 2 q + 1 + -s) := hxlt
    _ ≤ (2 : ℚ) ^ (24 : Int) := zpow_le_zpow_right₀ (by norm_num) hle
    _ = ((2 ^ 24 : Int) : ℚ) := by norm_num
  have hmle : rneQ (q * (2 : ℚ) ^ (-s)) ≤ 2 ^ 24 := rneQ_le_of_lt _ _ hxlt2
  have hm0 : 0 ≤ rneQ (q * (2 : ℚ) ^ (-s)) := rneQ_nonneg _ hx0
  exact f32pack_repr _ _ mo so hm0 hmle hs h

/-- Encoding via `encodeF32` only emits well-formed binary32 data. -/
theorem encodeF32_repr (neg : Bool) (q : ℚ) (f : GoFloat32)
    (h : encodeF32 neg q = some f) : F32Repr f := by
  unfold encodeF32 at h
  split at h
  · rename_i hq
    split at h
    · cases h
    · rename_i m s hr
      injection h with h2
      subst h2
      obtain ⟨hm, hs, hmax⟩ := roundPosF32_repr q hq m s hr
      by_cases hm0 : m = 0
      · subst hm0
        simp only [F32Repr, if_pos rfl]
        exact ⟨by norm_num, fun hc => absurd rfl hc⟩
      · simp only [F32Repr, if_neg hm0]
        exact ⟨hm, fun _ => ⟨hs, hmax hm0⟩⟩
  · injection h with h2
    subst h2
    exact F32Repr_zero neg

/-- Assembly via `assembleDec` only emits well-formed binary32 data. -/
theorem assembleDec_repr (neg : Bool) (m : Nat) (dexp : Int) (L : Nat)
    (f : GoFloat32) (h : assembleDec neg m dexp L = some f) : F32Repr f := by
  unfold assembleDec at h
  split at h
  · injection h with h2; subst h2; exact F32Repr_zero neg
  · split at h
    · cases h
    · split at h
      · injection h with h2; subst h2; exact F32Repr_zero neg
      · exact encodeF32_repr _ _ _ h

/-- Assembly via `assembleHex` only emits well-formed binary32 data. -/
theorem assembleHex_repr (neg : Bool) (m : Nat) (bexp : Int) (L : Nat)
    (f : GoFloat32) (h : assembleHex neg m bexp L = some f) : F32Repr f := by
  unfold assembleHex at h
  split at h
  · injection h with h2; subst h2; exact F32Repr_zero neg
  · split at h
    · cases h
    · split at h
      · injection h with h2; subst h2; exact F32Repr_zero neg
      · exact encodeF32_repr _ _ _ h

/-- Parsing via `goParseFloat32` only emits well-formed binary32 data. -/
theorem goParseFloat32_repr (s : String) (f : GoFloat32)
    (h : goParseFloat32 s = some f) : F32Repr f := by
  simp only [goParseFloat32] at h
  split at h
  · injection h with h2; subst h2; trivial
  · split at h
    · injection h with h2; subst h2; trivial
    · split at h
      · cases h
      · split at h
        · split at h
          · rw [Option.bind_eq_some] at h
            obtain ⟨a, _, hb⟩ := h
            exact assembleHex_repr _ _ _ _ _ hb
          · rw [Option.bind_eq_some] at h
            obtain ⟨a, _, hb⟩ := h
            exact assembleDec_repr _ _ _ _ _ hb
        · rw [Option.bind_eq_some] at h
          obtain ⟨a, _, hb⟩ := h
          exact assembleDec_repr _ _ _ _ _ hb

/-- The helper `parseFloat` always yields a well-formed binary32 datum. -/
theorem parseFloat_repr (s : String) : F32Repr (parseFloat s) := by
  unfold parseFloat
  cases hg : goParseFloat32 s with
  | none => exact F32Repr_zero false
  | some f => exact goParseFloat32_repr s f hg

/-- The narrowing `toInt32` always lands in the signed 32-bit range. -/
theorem toInt32_range (i : Int) :
    -(2 ^ 31) ≤ toInt32 i ∧ toInt32 i < 2 ^ 31 := by
  unfold toInt32
  have h1 : 0 ≤ (i + 2 ^ 31) % 2 ^ 32 := Int.emod_nonneg _ (by norm_num)
  have h2 : (i + 2 ^ 31) % 2 ^ 32 < 2 ^ 32 := Int.emod_lt_of_pos _ (by norm_num)
  omega

/-- The helper `parseInt` always lands in the signed 32-bit range. -/
theorem parseInt_range (s : String) :
    -(2 ^ 31) ≤ parseInt s ∧ parseInt s < 2 ^ 31 := by
  unfold parseInt
  cases hg : goAtoi s with
  | none => exact ⟨by norm_num, by norm_num⟩
  | some i => exact toInt32_range i

/-- Claim C9: every decoded integer field lies in the signed 32-bit range,
values parsed outside it being narrowed by two's-complement truncation
rather than rejecting the record; every decoded float field is a binary32
datum (32-bit precision), so no field carries 64-bit fidelity. -/
theorem numeric_fields_32bit :
    (∀ s, -(2 ^ 31) ≤ parseInt s ∧ parseInt s < 2 ^ 31) ∧
    (∀ s i, goAtoi s = some i →
      parseInt s = (i + 2 ^ 31) % 2 ^ 32 - 2 ^ 31) ∧
    (∀ s, F32Repr (parseFloat s)) ∧
    (∀ (now : Int) (msg : String),
      (-(2 ^ 31) ≤ (Parse now msg).1.TransmissionType ∧
        (Parse now msg).1.TransmissionType < 2 ^ 31) ∧
      (-(2 ^ 31) ≤ (Parse now msg).1.Altitude ∧
        (Parse now msg).1.Altitude < 2 ^ 31) ∧
      (-(2 ^ 31) ≤ (Parse now msg).1.VerticalRate ∧
        (Parse now msg).1.VerticalRate < 2 ^ 31) ∧
      (-(2 ^ 31) ≤ (Parse now msg).1.Squawk ∧
        (Parse now msg).1.Squawk < 2 ^ 31) ∧
      F32Repr (Parse now msg).1.GroundSpeed ∧
      F32Repr (Parse now msg).1.Track ∧
      F32Repr (Parse now msg).1.Lat ∧
      F32Repr (Parse now msg).1.Lon) := by
  refine ⟨parseInt_range, ?_, parseFloat_repr, ?_⟩
  · intro s i h
    unfold parseInt
    rw [h]
    rfl
  · intro now msg
    by_cases hg : (partsOf msg).length < 22 ∨ (partsOf msg).getD 0 "" ≠ "MSG"
    · simp only [Parse]
      rw [if_pos hg]
      simp only [NewSBS1Message]
      exact ⟨by norm_num, by norm_num, by norm_num, by norm_num,
        F32Repr_zero false, F32Repr_zero false, F32Repr_zero false,
        F32Repr_zero false⟩
    · simp only [Parse]
      rw [if_neg hg]
      exact ⟨parseInt_range _, parseInt_range _, parseInt_range _,
        parseInt_range _, parseFloat_repr _, parseFloat_repr _,
        parseFloat_repr _, parseFloat_repr _⟩

/-- Witness for C9: the text "4294967296" (that is, 2^32) parses as a
64-bit integer and is narrowed to 0 by the two's-complement truncation. -/
theorem numeric_fields_32bit_witness :
    goAtoi "4294967296" = some 4294967296 ∧
    parseInt "4294967296" =
      ((4294967296 : Int) + 2 ^ 31) % 2 ^ 32 - 2 ^ 31 ∧
    parseInt "4294967296" = 0 :=
  ⟨by decide,
    numeric_fields_32bit.2.1 "4294967296" 4294967296 (by decide),
    by decide⟩

/-! ### Fold lemmas for the read loop -/

/-- On an accepted line, a loop step appends the record and flushes exactly
when the buffer reaches the batch size. -/
theorem loopStep_accepted (bs : Int) (st : RunState) (i : LineInput)
    (h : (Parse i.now i.line).2 = true) :
    loopStep bs st i =
      if bs ≤ ((st.buffer ++ [recOf i]).length : Int) then
        { buffer := [], sent := st.sent ++ [st.buffer ++ [recOf i]],
          errLog := st.errLog ++
            (if i.sinkFails then ["Error sending messages:"] else []) }
      else { st with buffer := st.buffer ++ [recOf i] } := by
  unfold loopStep recOf
  rw [if_pos h]

/-- On a rejected line, a loop step leaves the state unchanged. -/
theorem loopStep_rejected (bs : Int) (st : RunState) (i : LineInput)
    (h : (Parse i.now i.line).2 = false) :
    loopStep bs st i = st := by
  unfold loopStep
  rw [if_neg (by simp [h])]

/-- Offering accepted records that keep the buffer strictly below the batch
size only appends them, in order, with no flush. -/
theorem runFrom_small (bs : Int) :
    ∀ (inputs : List LineInput) (st : RunState),
      (∀ i ∈ inputs, acceptedInp i) →
      ((st.buffer.length : Int) + inputs.length < bs) →
      List.foldl (loopStep bs) st inputs =
        { buffer := st.buffer ++ inputs.map recOf, sent := st.sent,
          errLog := st.errLog } := by
  intro inputs
  induction inputs with
  | nil =>
    intro st _ _
    cases st
    simp
  | cons i rest ih =>
    intro st hacc hlen
    have hi : acceptedInp i := hacc i (by simp)
    rw [List.foldl_cons, loopStep_accepted bs st i hi]
    rw [if_neg (by simp at hlen ⊢; omega)]
    rw [ih { st with buffer := st.buffer ++ [recOf i] }
      (fun j hj => hacc j (by simp [hj]))
      (by simp at hlen ⊢; omega)]
    simp

/-- Offering accepted records that bring the buffer exactly to the batch
size flushes once, at the last record, shipping the whole buffer in arrival
order and leaving it empty. -/
theorem runFrom_exact (bs : Int) (inputs : List LineInput) (st : RunState)
    (hne : inputs ≠ [])
    (hacc : ∀ i ∈ inputs, acceptedInp i)
    (hlen : (st.buffer.length : Int) + inputs.length = bs) :
    (List.foldl (loopStep bs) st inputs).buffer = [] ∧
    (List.foldl (loopStep bs) st inputs).sent =
      st.sent ++ [st.buffer ++ inputs.map recOf] := by
  have hdecomp := List.dropLast_append_getLast hne
  have hlast : inputs.getLast hne ∈ inputs := List.getLast_mem hne
  have hlen1 : 1 ≤ inputs.length := by
    cases inputs with
    | nil => exact absurd rfl hne
    | cons a l => simp
  have hdl : inputs.dropLast.length = inputs.length - 1 :=
    List.length_dropLast inputs
  rw [show inputs = inputs.dropLast ++ [inputs.getLast hne] from hdecomp.symm]
  rw [List.foldl_append, List.foldl_cons, List.foldl_nil]
  rw [runFrom_small bs inputs.dropLast st
    (fun j hj => hacc j (List.dropLast_subset inputs hj))
    (by rw [hdl]; omega)]
  rw [loopStep_accepted bs _ _ (hacc _ hlast)]
  rw [if_pos (by simp [hdl]; omega)]
  constructor
  · rfl
  · simp [List.map_append, List.append_assoc]

/-- After any loop step the buffer is unchanged (rejected line), empty
(flush) or strictly below the batch size. -/
theorem loopStep_buffer_cases (bs : Int) (st : RunState) (i : LineInput) :
    (loopStep bs st i).buffer = st.buffer ∨
    (loopStep bs st i).buffer = [] ∨
    (((loopStep bs st i).buffer.length : Int) < bs) := by
  by_cases h : (Parse i.now i.line).2 = true
  · rw [loopStep_accepted bs st i h]
    by_cases hc : bs ≤ ((st.buffer ++ [recOf i]).length : Int)
    · rw [if_pos hc]
      right; left; rfl
    · rw [if_neg hc]
      right; right
      show ((st.buffer ++ [recOf i]).length : Int) < bs
      exact not_le.mp hc
  · rw [loopStep_rejected bs st i (by simpa using h)]
    left; rfl

/-- The loop invariant: starting from an empty-or-below-capacity buffer, the
buffer stays empty or strictly below the batch size after every step. -/
theorem runFrom_buffer_inv (bs : Int) :
    ∀ (inputs : List LineInput) (st : RunState),
      (st.buffer = [] ∨ ((st.buffer.length : Int) < bs)) →
      ((List.foldl (loopStep bs) st inputs).buffer = [] ∨
        (((List.foldl (loopStep bs) st inputs).buffer.length : Int) < bs)) := by
  intro inputs
  induction inputs with
  | nil => intro st h; simpa using h
  | cons i rest ih =>
    intro st h
    rw [List.foldl_cons]
    apply ih
    rcases loopStep_buffer_cases bs st i with hc | hc | hc
    · rw [hc]; exact h
    · left; exact hc
    · right; exact hc

/-- A loop step only reads the buffer and sent fields of the state and the
line text and decode time of the input: the sink outcome flag influences
neither the resulting buffer nor the shipped batches. -/
theorem loopStep_congr (bs : Int) (st1 st2 : RunState) (i j : LineInput)
    (hb : st1.buffer = st2.buffer) (hs : st1.sent = st2.sent)
    (hline : i.line = j.line) (hnow : i.now = j.now) :
    (loopStep bs st1 i).buffer = (loopStep bs st2 j).buffer ∧
    (loopStep bs st1 i).sent = (loopStep bs st2 j).sent := by
  simp only [loopStep]
  rw [hline, hnow, hb, hs]
  by_cases hp : (Parse j.now j.line).2 = true
  · rw [if_pos hp, if_pos hp]
    by_cases hc :
        bs ≤ ((st2.buffer ++ [(Parse j.now j.line).1]).length : Int)
    · rw [if_pos hc, if_pos hc]
      exact ⟨rfl, rfl⟩
    · rw [if_neg hc, if_neg hc]
      exact ⟨rfl, rfl⟩
  · rw [if_neg hp, if_neg hp]
    exact ⟨hb, hs⟩

/-- Runs over input streams that agree on line text and decode times (but
may differ on sink outcomes), from states that agree on buffer and sent
batches, agree on buffer and sent batches forever. -/
theorem runFrom_congr (bs : Int) :
    ∀ (inputs1 inputs2 : List LineInput) (st1 st2 : RunState),
      inputs1.map LineInput.strip = inputs2.map LineInput.strip →
      st1.buffer = st2.buffer → st1.sent = st2.sent →
      (List.foldl (loopStep bs) st1 inputs1).buffer =
        (List.foldl (loopStep bs) st2 inputs2).buffer ∧
      (List.foldl (loopStep bs) st1 inputs1).sent =
        (List.foldl (loopStep bs) st2 inputs2).sent := by
  intro inputs1
  induction inputs1 with
  | nil =>
    intro inputs2 st1 st2 hmap hb hs
    have h2 : inputs2 = [] := by
      have h3 : inputs2.map LineInput.strip = [] := by simpa using hmap.symm
      exact List.map_eq_nil_iff.mp h3
    subst h2
    exact ⟨hb, hs⟩
  | cons i rest ih =>
    intro inputs2 st1 st2 hmap hb hs
    cases inputs2 with
    | nil => simp at hmap
    | cons j rest2 =>
      simp only [List.map_cons, List.cons.injEq] at hmap
      obtain ⟨hij, hrest⟩ := hmap
      have hline : i.line = j.line := congrArg Prod.fst hij
      have hnow : i.now = j.now := congrArg Prod.snd hij
      rw [List.foldl_cons, List.foldl_cons]
      exact ih rest2 _ _ hrest
        (loopStep_congr bs st1 st2 i j hb hs hline hnow).1
        (loopStep_congr bs st1 st2 i j hb hs hline hnow).2

/-! ### Claims about the batch forwarder -/

/-- Claim C5: with `batchSize ≥ 1`, offering exactly `batchSize` accepted
records triggers exactly one flush whose payload carries all the records,
one event per record in arrival order, and the buffer is empty as soon as
the triggering offer returns (so the stream end ships nothing more). -/
theorem batch_exact_single_flush :
    ∀ (bs : Int) (inputs : List LineInput), 1 ≤ bs →
      (∀ i ∈ inputs, acceptedInp i) →
      (inputs.length : Int) = bs →
      (runLoop bs inputs).sent = [inputs.map recOf] ∧
      (runLoop bs inputs).buffer = [] ∧
      (runApp bs inputs false).2 = none ∧
      (sendToService (inputs.map recOf)).map SinkEvent.attrsMessage =
        inputs.map recOf ∧
      (sendToService (inputs.map recOf)).length = inputs.length := by
  intro bs inputs h1 hacc hlen
  have hne : inputs ≠ [] := by
    intro he
    subst he
    simp at hlen
    omega
  obtain ⟨hbuf, hsent⟩ :=
    runFrom_exact bs inputs ⟨[], [], []⟩ hne hacc (by simpa using hlen)
  refine ⟨?_, hbuf, ?_, ?_, ?_⟩
  · unfold runLoop
    rw [hsent]
    simp
  · simp only [runApp, runLoop]
    rw [hbuf]
    simp
  · simp [sendToService, mkEvent, List.map_map, Function.comp]
  · simp [sendToService]

/-- Witness for C5 with `batchSize = 2` and two accepted lines. -/
theorem batch_exact_single_flush_witness :
    (runLoop 2 [⟨msgLineA, 1, false⟩, ⟨msgLineA, 2, true⟩]).sent =
      [[⟨msgLineA, 1, false⟩, ⟨msgLineA, 2, true⟩].map recOf] ∧
    (runLoop 2 [⟨msgLineA, 1, false⟩, ⟨msgLineA, 2, true⟩]).buffer = [] :=
  ⟨(batch_exact_single_flush 2 [⟨msgLineA, 1, false⟩, ⟨msgLineA, 2, true⟩]
      (by norm_num) (by decide) (by decide)).1,
    (batch_exact_single_flush 2 [⟨msgLineA, 1, false⟩, ⟨msgLineA, 2, true⟩]
      (by norm_num) (by decide) (by decide)).2.1⟩

/-- Claim C6: at the moment any offer of the read loop returns — that is,
after processing any prefix of any input stream — the buffer holds at most
`batchSize` records, for every `batchSize ≥ 1`. -/
theorem batch_buffer_never_exceeds :
    ∀ (bs : Int) (inputs : List LineInput) (n : Nat), 1 ≤ bs →
      ((runLoop bs (inputs.take n)).buffer.length : Int) ≤ bs := by
  intro bs inputs n h1
  unfold runLoop
  rcases runFrom_buffer_inv bs (inputs.take n) ⟨[], [], []⟩ (by left; rfl)
    with h | h
  · rw [h]
    simp
    omega
  · exact le_of_lt h

/-- Witness for C6 with `batchSize = 1` and a three-line stream. -/
theorem batch_buffer_never_exceeds_witness :
    ((runLoop 1 ([⟨msgLineA, 1, false⟩, ⟨"junk", 2, false⟩,
      ⟨msgLineA, 3, true⟩].take 2)).buffer.length : Int) ≤ 1 :=
  batch_buffer_never_exceeds 1
    [⟨msgLineA, 1, false⟩, ⟨"junk", 2, false⟩, ⟨msgLineA, 3, true⟩] 2
    (by norm_num)

/-- Counterexample to C7 as stated: with `batchSize = 1`, offering
`batchSize - 1 = 0` accepted records and ending the stream produces no
flush at all, not exactly one. -/
theorem batch_flush_count_cex :
    (1 : Int) ≥ 1 ∧ (([] : List LineInput).length : Int) = 1 - 1 ∧
    (runLoop 1 ([] : List LineInput)).sent = [] ∧
    (runApp 1 ([] : List LineInput) false).2 = none := by
  refine ⟨by norm_num, by norm_num, rfl, by decide⟩

/-- Claim C7 (amended): flush counting over whole runs.  With
`batchSize ≥ 2`, offering `batchSize - 1` accepted records and ending the
stream produces no flush during ingestion and exactly one flush at stream
end, containing those records; with `batchSize ≥ 1`, offering
`2 * batchSize + k` accepted records (`0 < k < batchSize`) produces exactly
the two full flushes during ingestion plus one final flush of the `k`
remaining records; and ending the stream with an empty buffer produces no
final flush.  (The original claim also asserted the first scenario at
`batchSize = 1`, where offering zero records in fact produces no flush.) -/
theorem batch_flush_count_runs :
    (∀ (bs : Int) (inputs : List LineInput), 2 ≤ bs →
      (∀ i ∈ inputs, acceptedInp i) →
      (inputs.length : Int) = bs - 1 →
      (runLoop bs inputs).sent = [] ∧
      (runApp bs inputs false).2 = some (inputs.map recOf)) ∧
    (∀ (bs : Int) (inputs : List LineInput) (k : Nat), 1 ≤ bs →
      (∀ i ∈ inputs, acceptedInp i) →
      0 < k → (k : Int) < bs →
      (inputs.length : Int) = 2 * bs + k →
      (runLoop bs inputs).sent =
        [(inputs.take bs.toNat).map recOf,
          ((inputs.drop bs.toNat).take bs.toNat).map recOf] ∧
      (runApp bs inputs false).2 =
        some (((inputs.drop bs.toNat).drop bs.toNat).map recOf) ∧
      ((inputs.drop bs.toNat).drop bs.toNat).length = k) ∧
    (∀ (bs : Int) (inputs : List LineInput) (ff : Bool),
      (runLoop bs inputs).buffer = [] → (runApp bs inputs ff).2 = none) := by
  refine ⟨?_, ?_, ?_⟩
  · intro bs inputs h2 hacc hlen
    have heq := runFrom_small bs inputs ⟨[], [], []⟩ hacc (by simp; omega)
    have hpos : 0 < inputs.length := by omega
    constructor
    · unfold runLoop
      rw [heq]
    · simp only [runApp, runLoop]
      rw [heq]
      rw [if_pos (by simpa using hpos)]
      simp
  · intro bs inputs k h1 hacc hk0 hkb hlen
    set n := bs.toNat with hn
    have hbsn : (n : Int) = bs := Int.toNat_of_nonneg (by omega)
    have hlenA : (inputs.take n).length = n := by
      rw [List.length_take]
      omega
    have hlenB : ((inputs.drop n).take n).length = n := by
      rw [List.length_take, List.length_drop]
      omega
    have hlenC : ((inputs.drop n).drop n).length = k := by
      rw [List.length_drop, List.length_drop]
      omega
    have hAacc : ∀ j ∈ inputs.take n, acceptedInp j :=
      fun j hj => hacc j (List.take_subset n inputs hj)
    have hBacc : ∀ j ∈ (inputs.drop n).take n, acceptedInp j :=
      fun j hj => hacc j (List.drop_subset n inputs (List.take_subset n _ hj))
    have hCacc : ∀ j ∈ (inputs.drop n).drop n, acceptedInp j :=
      fun j hj => hacc j (List.drop_subset n inputs (List.drop_subset n _ hj))
    have hAne : inputs.take n ≠ [] := by
      intro he
      rw [he] at hlenA
      simp at hlenA
      omega
    have hBne : (inputs.drop n).take n ≠ [] := by
      intro he
      rw [he] at hlenB
      simp at hlenB
      omega
    have hfold : List.foldl (loopStep bs) (⟨[], [], []⟩ : RunState) inputs =
        List.foldl (loopStep bs)
          (List.foldl (loopStep bs)
            (List.foldl (loopStep bs) (⟨[], [], []⟩ : RunState)
              (inputs.take n))
            ((inputs.drop n).take n))
          ((inputs.drop n).drop n) := by
      conv_lhs => rw [← List.take_append_drop n inputs]
      rw [List.foldl_append]
      conv_lhs => rw [← List.take_append_drop n (inputs.drop n)]
      rw [List.foldl_append]
    obtain ⟨hAbuf, hAsent⟩ :=
      runFrom_exact bs (inputs.take n) ⟨[], [], []⟩ hAne hAacc
        (by simp [hlenA]; omega)
    set stA := List.foldl (loopStep bs) (⟨[], [], []⟩ : RunState)
      (inputs.take n) with hstA
    obtain ⟨hBbuf, hBsent⟩ :=
      runFrom_exact bs ((inputs.drop n).take n) stA hBne hBacc
        (by rw [hAbuf]; simp [hlenB]; omega)
    set stB := List.foldl (loopStep bs) stA ((inputs.drop n).take n)
      with hstB
    have hC := runFrom_small bs ((inputs.drop n).drop n) stB hCacc
      (by rw [hBbuf]; simp [hlenC]; omega)
    refine ⟨?_, ?_, hlenC⟩
    · unfold runLoop
      rw [hfold, hC]
      show stB.sent = _
      rw [hBsent, hAsent, hAbuf]
      simp
    · simp only [runApp, runLoop]
      rw [hfold, hC]
      rw [if_pos (by simp [hBbuf, hlenC]; omega)]
      simp [hBbuf]
  · intro bs inputs ff h
    unfold runLoop at h
    simp only [runApp, runLoop]
    rw [h]
    simp

/-- Five accepted lines, used by the C7 witness with `batchSize = 2`. -/
def fiveLines : List LineInput :=
  [⟨msgLineA, 1, false⟩, ⟨msgLineA, 2, false⟩, ⟨msgLineA, 3, true⟩,
    ⟨msgLineA, 4, false⟩, ⟨msgLineA, 5, false⟩]

/-- Witness for C7 at `batchSize = 2`: one record then stream end (one
final flush), five records (two full flushes plus a final flush of one),
and an empty run (no final flush). -/
theorem batch_flush_count_runs_witness :
    ((runLoop 2 [⟨msgLineA, 1, false⟩]).sent = [] ∧
      (runApp 2 [⟨msgLineA, 1, false⟩] false).2 =
        some ([⟨msgLineA, 1, false⟩].map recOf)) ∧
    ((runLoop 2 fiveLines).sent =
      [(fiveLines.take (2 : Int).toNat).map recOf,
        ((fiveLines.drop (2 : Int).toNat).take (2 : Int).toNat).map recOf] ∧
      (runApp 2 fiveLines false).2 =
        some (((fiveLines.drop (2 : Int).toNat).drop (2 : Int).toNat).map
          recOf) ∧
      ((fiveLines.drop (2 : Int).toNat).drop (2 : Int).toNat).length = 1) ∧
    (runApp 2 ([] : List LineInput) true).2 = none :=
  ⟨batch_flush_count_runs.1 2 [⟨msgLineA, 1, false⟩] (by norm_num)
      (by decide) (by decide),
    batch_flush_count_runs.2.1 2 fiveLines 1 (by norm_num) (by decide)
      (by norm_num) (by norm_num) (by decide),
    batch_flush_count_runs.2.2 2 [] true (by decide)⟩

/-- Claim C8: a flush empties the buffer before the offer returns, whatever
the sink outcome; runs that differ only in sink outcomes ship the same
batches and hold the same buffers (the failed batch is never retained or
re-buffered, later records land in a fresh batch, and the loop keeps
processing — no fatal termination path exists in the loop body). -/
theorem flush_outcome_independence :
    (∀ (bs : Int) (st : RunState) (i : LineInput),
      (Parse i.now i.line).2 = true →
      bs ≤ ((st.buffer ++ [recOf i]).length : Int) →
      (loopStep bs st i).buffer = [] ∧
      (loopStep bs st i).sent = st.sent ++ [st.buffer ++ [recOf i]]) ∧
    (∀ (bs : Int) (inputs1 inputs2 : List LineInput),
      inputs1.map LineInput.strip = inputs2.map LineInput.strip →
      (runLoop bs inputs1).buffer = (runLoop bs inputs2).buffer ∧
      (runLoop bs inputs1).sent = (runLoop bs inputs2).sent) ∧
    (∀ (bs : Int) (inputs : List LineInput) (f1 f2 : Bool),
      (runApp bs inputs f1).2 = (runApp bs inputs f2).2) := by
  refine ⟨?_, ?_, ?_⟩
  · intro bs st i hp hc
    rw [loopStep_accepted bs st i hp, if_pos hc]
    exact ⟨rfl, rfl⟩
  · intro bs inputs1 inputs2 hmap
    exact runFrom_congr bs inputs1 inputs2 ⟨[], [], []⟩ ⟨[], [], []⟩ hmap
      rfl rfl
  · intro bs inputs f1 f2
    simp only [runApp]
    by_cases hc : 0 < (runLoop bs inputs).buffer.length
    · rw [if_pos hc, if_pos hc]
    · rw [if_neg hc, if_neg hc]

/-- Witness for C8: a flush with a failing sink at `batchSize = 1`, and the
same one-line run with the two sink outcomes. -/
theorem flush_outcome_independence_witness :
    (loopStep 1 ⟨[], [], []⟩ ⟨msgLineA, 1, true⟩).buffer = [] ∧
    (loopStep 1 ⟨[], [], []⟩ ⟨msgLineA, 1, true⟩).sent =
      [[recOf ⟨msgLineA, 1, true⟩]] ∧
    (runLoop 1 [⟨msgLineA, 1, true⟩]).buffer =
      (runLoop 1 [⟨msgLineA, 1, false⟩]).buffer ∧
    (runLoop 1 [⟨msgLineA, 1, true⟩]).sent =
      (runLoop 1 [⟨msgLineA, 1, false⟩]).sent ∧
    (runApp 1 [⟨msgLineA, 1, true⟩] true).2 =
      (runApp 1 [⟨msgLineA, 1, true⟩] false).2 :=
  ⟨(flush_outcome_independence.1 1 ⟨[], [], []⟩ ⟨msgLineA, 1, true⟩
      (by decide) (by decide)).1,
    (flush_outcome_independence.1 1 ⟨[], [], []⟩ ⟨msgLineA, 1, true⟩
      (by decide) (by decide)).2,
    (flush_outcome_independence.2.1 1 [⟨msgLineA, 1, true⟩]
      [⟨msgLineA, 1, false⟩] (by decide)).1,
    (flush_outcome_independence.2.1 1 [⟨msgLineA, 1, true⟩]
      [⟨msgLineA, 1, false⟩] (by decide)).2,
    flush_outcome_independence.2.2 1 [⟨msgLineA, 1, true⟩] true false⟩
